import Mathlib

/-!
Verification of the asynchronous job-lifecycle coordinator of the
AI-Powered Multi-Agent Technical Analysis System frontend.

The embedding follows the TypeScript source:
- `ta-agent-frontend/src/store/querySlice.ts` (Redux slice: state shape,
  reducers and extraReducers),
- `ta-agent-frontend/src/components/dashboard/QueryInput.tsx` (polling
  `useEffect` and `handleSubmit` validation),
- `ta-agent-frontend/src/components/dashboard/QueryHistory.tsx`
  (`sortedQueries` projection).

Modelling conventions:
- TypeScript `number` fields are `Int` (ids, totals) — JS numbers are not
  clamped at zero. `created_at` is modelled by its `getTime()` value.
- Opaque `any` payloads (`result`, `comparisonData`) are modelled as opaque
  `String` blobs: this layer never inspects their shape.
- Redux semantics: an action type with no registered case leaves the state
  unchanged; `createSlice` reducers are modelled as pure functions on the
  state record.
-/

namespace TAAgent

/-- `Query.status` from `types/index.ts`: `'pending' | 'completed' | 'failed'`. -/
inductive QueryStatus where
  | pending
  | completed
  | failed
deriving DecidableEq, Repr

/-- The `Query` interface from `ta-agent-frontend/src/types/index.ts`.
`created_at` is modelled by its numeric `getTime()` value, which is the only
way the coordinator consumes it (sorting). `result` is an opaque blob. -/
structure Query where
  id : Int
  query_text : String
  query_type : String
  ticker : Option String
  result : Option String
  status : QueryStatus
  error_message : Option String
  created_at : Int
deriving DecidableEq, Repr

/-- The `QueryState` interface of `querySlice.ts`. -/
structure QueryState where
  queries : List Query
  currentQuery : Option Query
  comparisonData : Option String
  total : Int
  loading : Bool
  error : Option String
deriving DecidableEq, Repr

/-- `initialState` of `querySlice.ts`. -/
def initialState : QueryState :=
  { queries := []
    currentQuery := none
    comparisonData := none
    total := 0
    loading := false
    error := none }

/-- The actions the slice can receive: the three synchronous reducers plus the
pending/fulfilled/rejected actions of the four async thunks that have (or could
have) cases in `extraReducers`. `fetchQueryRejected` is included because the
thunk dispatches it, even though the reducer registers no case for it. -/
inductive Action where
  | clearError
  | clearCurrentQuery
  | setComparisonData (payload : String)
  | createQueryPending
  | createQueryFulfilled (q : Query)
  | createQueryRejected (msg : String)
  | fetchQueriesPending
  | fetchQueriesFulfilled (queries : List Query) (total : Int)
  | fetchQueriesRejected (msg : String)
  | fetchQueryFulfilled (q : Query)
  | fetchQueryRejected (msg : String)
  | deleteQueryFulfilled (id : Int)
deriving DecidableEq, Repr

/-- The `fetchQuery.fulfilled` list update of `querySlice.ts`:
`const index = state.queries.findIndex(q => q.id === action.payload.id);
 if (index !== -1) { state.queries[index] = action.payload; }`. -/
def patchQueries (qs : List Query) (payload : Query) : List Query :=
  match qs.findIdx? (fun q => q.id == payload.id) with
  | some i => qs.set i payload
  | none => qs

/-- The `querySlice` reducer: the three `reducers` entries and every
`extraReducers` case, verbatim from `querySlice.ts`. An action with no
registered case (`fetchQueryRejected`, the pending/rejected actions of
`fetchQuery` and `deleteQuery`) returns the state unchanged, which is the
Redux behaviour for an unmatched action type. -/
def queryReducer (s : QueryState) : Action → QueryState
  | .clearError => { s with error := none }
  | .clearCurrentQuery => { s with currentQuery := none, comparisonData := none }
  | .setComparisonData payload =>
      { s with comparisonData := some payload, currentQuery := none }
  | .createQueryPending => { s with loading := true, error := none }
  | .createQueryFulfilled q =>
      { s with loading := false
               currentQuery := some q
               comparisonData := none
               queries := q :: s.queries }
  | .createQueryRejected msg => { s with loading := false, error := some msg }
  | .fetchQueriesPending => { s with loading := true, error := none }
  | .fetchQueriesFulfilled qs t => { s with loading := false, queries := qs, total := t }
  | .fetchQueriesRejected msg => { s with loading := false, error := some msg }
  | .fetchQueryFulfilled q =>
      { s with currentQuery := some q, queries := patchQueries s.queries q }
  | .fetchQueryRejected _ => s
  | .deleteQueryFulfilled id =>
      { s with queries := s.queries.filter (fun q => q.id != id), total := s.total - 1 }

/-- Run a sequence of store operations from a starting state. -/
def runActions (acts : List Action) (s : QueryState) : QueryState :=
  acts.foldl queryReducer s

/-- The display-slot exclusivity predicate: at most one of `currentQuery`
(`focusedJob`) and `comparisonData` (`comparisonResult`) is non-empty. -/
def displayExclusive (s : QueryState) : Prop :=
  s.currentQuery = none ∨ s.comparisonData = none

instance (s : QueryState) : Decidable (displayExclusive s) := by
  unfold displayExclusive
  infer_instance

/-- Tests whether an action is the `patchJob` operation (`fetchQuery.fulfilled`). -/
def isPatchAction : Action → Bool
  | .fetchQueryFulfilled _ => true
  | _ => false

/-- A sample job used in concrete counterexamples and witnesses. -/
def sampleJob : Query :=
  { id := 1
    query_text := "Should I buy AAPL now?"
    query_type := "analyze"
    ticker := some "AAPL"
    result := none
    status := .pending
    error_message := none
    created_at := 100 }

/-- The sample job after completion (same id, terminal status). -/
def sampleJobCompleted : Query :=
  { sampleJob with status := .completed, result := some "analysis" }

/-- A second sample job with a different id and no ticker. -/
def sampleJobOther : Query :=
  { sampleJob with id := 2, ticker := none, query_type := "general", created_at := 50 }

/-- Every store operation other than `fetchQuery.fulfilled` preserves
display-slot exclusivity. -/
theorem displayExclusive_preserved (s : QueryState) (a : Action)
    (hs : displayExclusive s) (ha : isPatchAction a = false) :
    displayExclusive (queryReducer s a) := by
  cases a <;> simp_all [queryReducer, displayExclusive, isPatchAction]

/-- Exclusivity is preserved along any patch-free run. -/
theorem runActions_displayExclusive (acts : List Action) (s : QueryState)
    (hs : displayExclusive s) (h : ∀ a ∈ acts, isPatchAction a = false) :
    displayExclusive (runActions acts s) := by
  induction acts generalizing s with
  | nil => exact hs
  | cons a rest ih =>
      exact ih (queryReducer s a)
        (displayExclusive_preserved s a hs (h a (by simp)))
        (fun b hb => h b (by simp [hb]))

/-- C1 (counterexample): the claimed exclusivity invariant fails on the code.
Starting from the initial state, `setComparisonData` followed by
`fetchQuery.fulfilled` leaves both `comparisonData` and `currentQuery`
populated, because the `fetchQuery.fulfilled` case sets `currentQuery`
without clearing `comparisonData`. -/
theorem C1_counterexample :
    ¬ displayExclusive (runActions
      [Action.setComparisonData "cmp", Action.fetchQueryFulfilled sampleJob]
      initialState) := by decide

/-- C1 (amended): display-slot exclusivity holds after every prefix of every
sequence of store operations that contains no `patchJob`
(`fetchQuery.fulfilled`) operation; that one operation can leave both slots
populated, every other operation preserves exclusivity. -/
theorem C1_display_exclusive_no_patch (acts : List Action)
    (h : ∀ a ∈ acts, isPatchAction a = false) (n : ℕ) :
    displayExclusive (runActions (acts.take n) initialState) :=
  runActions_displayExclusive (acts.take n) initialState (Or.inl rfl)
    (fun a ha => h a (List.take_subset n acts ha))

/-- C1 witness: a concrete patch-free run satisfying the hypothesis, with the
exclusivity conclusion evaluated at it. -/
theorem C1_display_exclusive_no_patch_witness :
    (∀ a ∈ [Action.setComparisonData "cmp", Action.clearCurrentQuery,
            Action.createQueryFulfilled sampleJob], isPatchAction a = false) ∧
    displayExclusive (runActions (List.take 3
      [Action.setComparisonData "cmp", Action.clearCurrentQuery,
       Action.createQueryFulfilled sampleJob]) initialState) :=
  ⟨by decide, C1_display_exclusive_no_patch _ (by decide) 3⟩

/-- Rows of a patched list are either original rows or the payload. -/
theorem mem_patchQueries {qs : List Query} {p j : Query}
    (h : j ∈ patchQueries qs p) : j ∈ qs ∨ j = p := by
  unfold patchQueries at h
  cases hf : qs.findIdx? (fun q => q.id == p.id) with
  | none => rw [hf] at h; exact Or.inl h
  | some i => rw [hf] at h; exact List.mem_or_eq_of_mem_set h

/-- C3 (counterexample): terminal states are not absorbing. With a completed
job of id 1 in the store (both as a row and as the focused job), a
`fetchQuery.fulfilled` whose payload has id 1 and status pending replaces the
row and the focused job wholesale, reverting both to `Pending`. -/
theorem C3_counterexample :
    (let s0 : QueryState := { initialState with
        queries := [sampleJobCompleted], currentQuery := some sampleJobCompleted };
     let s1 := queryReducer s0 (Action.fetchQueryFulfilled sampleJob);
     sampleJobCompleted ∈ s0.queries ∧
     sampleJobCompleted.status = QueryStatus.completed ∧
     sampleJob.id = sampleJobCompleted.id ∧
     sampleJob.status = QueryStatus.pending ∧
     s1.queries = [sampleJob] ∧
     s1.currentQuery = some sampleJob) := by decide

/-- C3 (amended): `patchJob` replaces the matched row and the focused job
wholesale with the fetched payload, so a terminal row stays terminal exactly
when the payload is terminal. When the fetched payload has a terminal status,
the patch introduces no `Pending` row (any pending row after the patch was
already present before it) and leaves the focused job terminal. -/
theorem C3_terminal_payload (s : QueryState) (q : Query)
    (hq : q.status ≠ QueryStatus.pending) :
    (∀ j ∈ (queryReducer s (.fetchQueryFulfilled q)).queries,
        j.status = QueryStatus.pending → j ∈ s.queries) ∧
    (∀ j, (queryReducer s (.fetchQueryFulfilled q)).currentQuery = some j →
        j.status ≠ QueryStatus.pending) := by
  constructor
  · intro j hj hpend
    have hj' : j ∈ patchQueries s.queries q := hj
    rcases mem_patchQueries hj' with h | rfl
    · exact h
    · exact absurd hpend hq
  · intro j hj
    have : some q = some j := hj
    cases this
    exact hq

/-- C3 witness: the amended theorem applied at a concrete state and a concrete
terminal payload. -/
theorem C3_terminal_payload_witness :
    sampleJobCompleted.status ≠ QueryStatus.pending ∧
    ((∀ j ∈ (queryReducer { initialState with queries := [sampleJob] }
          (.fetchQueryFulfilled sampleJobCompleted)).queries,
        j.status = QueryStatus.pending →
          j ∈ ({ initialState with queries := [sampleJob] } : QueryState).queries) ∧
     (∀ j, (queryReducer { initialState with queries := [sampleJob] }
          (.fetchQueryFulfilled sampleJobCompleted)).currentQuery = some j →
        j.status ≠ QueryStatus.pending)) :=
  ⟨by decide, C3_terminal_payload { initialState with queries := [sampleJob] }
      sampleJobCompleted (by decide)⟩

/-- C4 (counterexample): `patchJob` has no focus guard and is not a no-op on a
missing id. With an empty `queries` list and job 1 focused, a
`fetchQuery.fulfilled` for id 2 changes the state (so not a no-op although id
2 is not in `queries`) and overwrites the focused job although its id differs
from the fetched id. -/
theorem C4_counterexample :
    (let s0 : QueryState :=
       { initialState with currentQuery := some sampleJobCompleted };
     let s1 := queryReducer s0 (Action.fetchQueryFulfilled sampleJobOther);
     s0.queries.findIdx? (fun j => j.id == sampleJobOther.id) = none ∧
     s0.currentQuery = some sampleJobCompleted ∧
     sampleJobCompleted.id ≠ sampleJobOther.id ∧
     s1 ≠ s0 ∧
     s1.currentQuery = some sampleJobOther) := by decide

/-- C4 (amended): `patchJob(id, payload)` (`fetchQuery.fulfilled`) replaces the
first row in `jobs` whose id matches with the payload (leaving `jobs` unchanged
when no row matches), and always sets the focused job to the payload,
regardless of whether the previously focused job has that id; all other fields
(`comparisonData`, `total`, `loading`, `error`) are unchanged. -/
theorem C4_patch_semantics (s : QueryState) (q : Query) :
    ((queryReducer s (.fetchQueryFulfilled q)).currentQuery = some q) ∧
    (∀ i, s.queries.findIdx? (fun j => j.id == q.id) = some i →
        (queryReducer s (.fetchQueryFulfilled q)).queries = s.queries.set i q) ∧
    (s.queries.findIdx? (fun j => j.id == q.id) = none →
        (queryReducer s (.fetchQueryFulfilled q)).queries = s.queries) ∧
    ((queryReducer s (.fetchQueryFulfilled q)).comparisonData = s.comparisonData) ∧
    ((queryReducer s (.fetchQueryFulfilled q)).total = s.total) ∧
    ((queryReducer s (.fetchQueryFulfilled q)).loading = s.loading) ∧
    ((queryReducer s (.fetchQueryFulfilled q)).error = s.error) := by
  refine ⟨rfl, ?_, ?_, rfl, rfl, rfl, rfl⟩
  · intro i hi
    simp [queryReducer, patchQueries, hi]
  · intro hn
    simp [queryReducer, patchQueries, hn]

/-- C4 witness: the amended patch semantics evaluated at a concrete state and
payload. -/
theorem C4_patch_semantics_witness :
    ((queryReducer { initialState with queries := [sampleJob] }
        (.fetchQueryFulfilled sampleJobCompleted)).currentQuery =
          some sampleJobCompleted) ∧
    (∀ i, ({ initialState with queries := [sampleJob] } : QueryState).queries.findIdx?
          (fun j => j.id == sampleJobCompleted.id) = some i →
        (queryReducer { initialState with queries := [sampleJob] }
          (.fetchQueryFulfilled sampleJobCompleted)).queries =
          ({ initialState with queries := [sampleJob] } : QueryState).queries.set
            i sampleJobCompleted) ∧
    (({ initialState with queries := [sampleJob] } : QueryState).queries.findIdx?
          (fun j => j.id == sampleJobCompleted.id) = none →
        (queryReducer { initialState with queries := [sampleJob] }
          (.fetchQueryFulfilled sampleJobCompleted)).queries =
          ({ initialState with queries := [sampleJob] } : QueryState).queries) ∧
    ((queryReducer { initialState with queries := [sampleJob] }
        (.fetchQueryFulfilled sampleJobCompleted)).comparisonData =
          ({ initialState with queries := [sampleJob] } : QueryState).comparisonData) ∧
    ((queryReducer { initialState with queries := [sampleJob] }
        (.fetchQueryFulfilled sampleJobCompleted)).total =
          ({ initialState with queries := [sampleJob] } : QueryState).total) ∧
    ((queryReducer { initialState with queries := [sampleJob] }
        (.fetchQueryFulfilled sampleJobCompleted)).loading =
          ({ initialState with queries := [sampleJob] } : QueryState).loading) ∧
    ((queryReducer { initialState with queries := [sampleJob] }
        (.fetchQueryFulfilled sampleJobCompleted)).error =
          ({ initialState with queries := [sampleJob] } : QueryState).error) :=
  C4_patch_semantics { initialState with queries := [sampleJob] } sampleJobCompleted

/-- C5 (counterexample): a successful delete does not clear the focused job.
With job 1 both listed and focused, `deleteQuery.fulfilled(1)` removes the row
and decrements `total`, but `currentQuery` still holds job 1. -/
theorem C5_counterexample :
    (let s0 : QueryState := { initialState with
        queries := [sampleJobCompleted], currentQuery := some sampleJobCompleted,
        total := 1 };
     let s1 := queryReducer s0 (Action.deleteQueryFulfilled 1);
     s0.currentQuery = some sampleJobCompleted ∧
     sampleJobCompleted.id = 1 ∧
     s1.queries = [] ∧
     s1.total = 0 ∧
     s1.currentQuery = some sampleJobCompleted) := by decide

/-- C5 (amended): `removeJob(id)` (`deleteQuery.fulfilled`) removes every row
with the deleted id from `jobs` (keeping all others) and decrements `total` by
1, but leaves the focused job unchanged even when its id is the deleted one
(the deleted job can remain in the result slot); `comparisonData` is also
untouched. -/
theorem C5_delete_semantics (s : QueryState) (id : Int) :
    (∀ j ∈ (queryReducer s (.deleteQueryFulfilled id)).queries, j.id ≠ id) ∧
    (∀ j ∈ s.queries, j.id ≠ id →
        j ∈ (queryReducer s (.deleteQueryFulfilled id)).queries) ∧
    ((queryReducer s (.deleteQueryFulfilled id)).total = s.total - 1) ∧
    ((queryReducer s (.deleteQueryFulfilled id)).currentQuery = s.currentQuery) ∧
    ((queryReducer s (.deleteQueryFulfilled id)).comparisonData = s.comparisonData) := by
  refine ⟨?_, ?_, rfl, rfl, rfl⟩
  · intro j hj
    have hj' : j ∈ s.queries.filter (fun q => q.id != id) := hj
    simpa using (List.mem_filter.mp hj').2
  · intro j hj hne
    show j ∈ s.queries.filter (fun q => q.id != id)
    exact List.mem_filter.mpr ⟨hj, by simpa using hne⟩

/-- C5 witness: the amended delete semantics evaluated at a concrete state. -/
theorem C5_delete_semantics_witness :
    (∀ j ∈ (queryReducer { initialState with
          queries := [sampleJobCompleted], currentQuery := some sampleJobCompleted,
          total := 1 } (.deleteQueryFulfilled 1)).queries, j.id ≠ 1) ∧
    (∀ j ∈ ({ initialState with
          queries := [sampleJobCompleted], currentQuery := some sampleJobCompleted,
          total := 1 } : QueryState).queries, j.id ≠ 1 →
        j ∈ (queryReducer { initialState with
          queries := [sampleJobCompleted], currentQuery := some sampleJobCompleted,
          total := 1 } (.deleteQueryFulfilled 1)).queries) ∧
    ((queryReducer { initialState with
          queries := [sampleJobCompleted], currentQuery := some sampleJobCompleted,
          total := 1 } (.deleteQueryFulfilled 1)).total =
        ({ initialState with
          queries := [sampleJobCompleted], currentQuery := some sampleJobCompleted,
          total := 1 } : QueryState).total - 1) ∧
    ((queryReducer { initialState with
          queries := [sampleJobCompleted], currentQuery := some sampleJobCompleted,
          total := 1 } (.deleteQueryFulfilled 1)).currentQuery =
        ({ initialState with
          queries := [sampleJobCompleted], currentQuery := some sampleJobCompleted,
          total := 1 } : QueryState).currentQuery) ∧
    ((queryReducer { initialState with
          queries := [sampleJobCompleted], currentQuery := some sampleJobCompleted,
          total := 1 } (.deleteQueryFulfilled 1)).comparisonData =
        ({ initialState with
          queries := [sampleJobCompleted], currentQuery := some sampleJobCompleted,
          total := 1 } : QueryState).comparisonData) :=
  C5_delete_semantics { initialState with
      queries := [sampleJobCompleted], currentQuery := some sampleJobCompleted,
      total := 1 } 1

/-- C10 (confirmed): a successful delete always subtracts exactly 1 from
`total`, even when the filter removes no row because the id is absent from
`queries`; `total` is not clamped at zero, so a successful delete from a state
with `total = 0` leaves `total` negative. -/
theorem C10_delete_total (s : QueryState) (id : Int) :
    ((queryReducer s (.deleteQueryFulfilled id)).total = s.total - 1) ∧
    ((∀ j ∈ s.queries, j.id ≠ id) →
        (queryReducer s (.deleteQueryFulfilled id)).queries = s.queries) ∧
    (s.total = 0 → (queryReducer s (.deleteQueryFulfilled id)).total < 0) := by
  refine ⟨rfl, ?_, ?_⟩
  · intro h
    show s.queries.filter (fun q => q.id != id) = s.queries
    rw [List.filter_eq_self]
    intro a ha
    simpa using h a ha
  · intro h0
    show s.total - 1 < 0
    omega

/-- C10 witness: deleting id 5 from the initial state (empty list, zero total)
leaves the list unchanged and drives `total` to -1. -/
theorem C10_delete_total_witness :
    ((queryReducer initialState (.deleteQueryFulfilled 5)).total =
        initialState.total - 1) ∧
    ((∀ j ∈ initialState.queries, j.id ≠ 5) →
        (queryReducer initialState (.deleteQueryFulfilled 5)).queries =
          initialState.queries) ∧
    (initialState.total = 0 →
        (queryReducer initialState (.deleteQueryFulfilled 5)).total < 0) :=
  C10_delete_total initialState 5

/-!
Polling model, from the `useEffect` in `QueryInput.tsx`:

```
useEffect(() => {
  if (!pollingQueryId) return;
  const pollInterval = setInterval(async () => { ... }, 2000);
  return () => clearInterval(pollInterval);
}, [pollingQueryId, dispatch]);
```

React runs the previous effect's cleanup before the next effect body. We model
the browser's interval table explicitly: `setInterval` registers a fresh timer
handle, `clearInterval` removes it. The JS falsy test `!pollingQueryId` is
true for `null` and for the id `0`.
-/

/-- An active `setInterval` timer: its handle, the `pollingQueryId` captured by
the tick closure, and the interval in milliseconds. -/
structure Timer where
  handle : Nat
  queryId : Int
  intervalMs : Nat
deriving DecidableEq, Repr

/-- The browser-side timer environment of the polling effect. `cleanup` holds
the handle that the currently registered effect cleanup will clear, if any. -/
structure PollEnv where
  timers : List Timer
  nextHandle : Nat
  cleanup : Option Nat
deriving DecidableEq, Repr

/-- No effect has run yet: no timers, no registered cleanup. -/
def pollInit : PollEnv := { timers := [], nextHandle := 0, cleanup := none }

/-- `clearInterval(h)`: remove the timer with handle `h`. -/
def clearIntervalEnv (e : PollEnv) (h : Nat) : PollEnv :=
  { e with timers := e.timers.filter (fun t => t.handle != h) }

/-- Run the previous effect's cleanup, if one was registered. -/
def runCleanup (e : PollEnv) : PollEnv :=
  match e.cleanup with
  | some h => { clearIntervalEnv e h with cleanup := none }
  | none => e

/-- The effect body: `if (!pollingQueryId) return;` then
`setInterval(..., 2000)` whose handle the returned cleanup will clear. -/
def effectBody (v : Option Int) (e : PollEnv) : PollEnv :=
  match v with
  | none => e
  | some qid =>
      if qid == 0 then e
      else
        { timers := ⟨e.nextHandle, qid, 2000⟩ :: e.timers
          nextHandle := e.nextHandle + 1
          cleanup := some e.nextHandle }

/-- One re-run of the polling effect after `pollingQueryId` becomes `v`:
previous cleanup first, then the body. This is the `arm` operation. -/
def arm (v : Option Int) (e : PollEnv) : PollEnv :=
  effectBody v (runCleanup e)

/-- Run a sequence of `arm` calls from the initial environment. -/
def armSeq (calls : List (Option Int)) : PollEnv :=
  calls.foldl (fun e v => arm v e) pollInit

/-- The environment invariant: either no timer is active and no cleanup is
registered, or exactly one timer is active, the registered cleanup clears
exactly that timer's handle, and its interval is the fixed 2000 ms. -/
def envInv (e : PollEnv) : Prop :=
  (e.timers = [] ∧ e.cleanup = none) ∨
  (∃ t, e.timers = [t] ∧ e.cleanup = some t.handle ∧ t.intervalMs = 2000)

/-- After the cleanup phase of an environment satisfying the invariant, no
timer is active: the previous watch is cancelled before the new one starts. -/
theorem runCleanup_timers_nil {e : PollEnv} (he : envInv e) :
    (runCleanup e).timers = [] := by
  rcases he with ⟨ht, hc⟩ | ⟨t, ht, hc, _⟩
  · simp [runCleanup, hc, ht]
  · simp [runCleanup, hc, clearIntervalEnv, ht]

/-- `arm` preserves the environment invariant. -/
theorem envInv_arm {e : PollEnv} (he : envInv e) (v : Option Int) :
    envInv (arm v e) := by
  have hnil : (runCleanup e).timers = [] := runCleanup_timers_nil he
  unfold arm effectBody
  cases v with
  | none =>
      left
      refine ⟨hnil, ?_⟩
      rcases he with ⟨ht, hc⟩ | ⟨t, ht, hc, _⟩ <;> simp [runCleanup, hc]
  | some qid =>
      by_cases h0 : qid == 0
      · simp only [h0, if_true]
        left
        refine ⟨hnil, ?_⟩
        rcases he with ⟨ht, hc⟩ | ⟨t, ht, hc, _⟩ <;> simp [runCleanup, hc]
      · simp only [h0, if_false]
        right
        exact ⟨⟨(runCleanup e).nextHandle, qid, 2000⟩, by simp [hnil], rfl, rfl⟩

/-- Every sequence of `arm` calls reaches an invariant state. -/
theorem envInv_armSeq (calls : List (Option Int)) : envInv (armSeq calls) := by
  have h : ∀ (cs : List (Option Int)) (e : PollEnv), envInv e →
      envInv (cs.foldl (fun e v => arm v e) e) := by
    intro cs
    induction cs with
    | nil => exact fun e he => he
    | cons c rest ih => exact fun e he => ih (arm c e) (envInv_arm he c)
  exact h calls pollInit (Or.inl ⟨rfl, rfl⟩)

/-- C2 (confirmed): for every sequence of `arm` calls (changes of
`pollingQueryId` driving the effect) at most one poll timer is ever active;
during the re-run for a new id the cleanup phase leaves zero timers before the
new one is registered (no overlap window); and arming a watch for a job `B`
with a non-falsy id leaves exactly one active timer, for `B`, at the fixed
2000 ms interval. -/
theorem C2_single_watch (calls : List (Option Int)) (B : Int) (hB : B ≠ 0) :
    (armSeq calls).timers.length ≤ 1 ∧
    (runCleanup (armSeq calls)).timers = [] ∧
    (arm (some B) (armSeq calls)).timers.map (fun t => t.queryId) = [B] ∧
    (arm (some B) (armSeq calls)).timers.map (fun t => t.intervalMs) = [2000] := by
  have he := envInv_armSeq calls
  have hnil := runCleanup_timers_nil he
  refine ⟨?_, hnil, ?_, ?_⟩
  · rcases he with ⟨ht, _⟩ | ⟨t, ht, _, _⟩ <;> simp [ht]
  · have hb : (B == 0) = false := by simpa using hB
    simp [arm, effectBody, hb, hnil]
  · have hb : (B == 0) = false := by simpa using hB
    simp [arm, effectBody, hb, hnil]

/-- C2 witness: a concrete call sequence and a concrete non-zero job id. -/
theorem C2_single_watch_witness :
    ((2 : Int) ≠ 0) ∧
    ((armSeq [some 1, none, some 3]).timers.length ≤ 1 ∧
     (runCleanup (armSeq [some 1, none, some 3])).timers = [] ∧
     (arm (some 2) (armSeq [some 1, none, some 3])).timers.map
        (fun t => t.queryId) = [2] ∧
     (arm (some 2) (armSeq [some 1, none, some 3])).timers.map
        (fun t => t.intervalMs) = [2000]) :=
  ⟨by decide, C2_single_watch [some 1, none, some 3] 2 (by decide)⟩

/-- The outcome of the `dispatch(fetchQuery(pollingQueryId))` awaited inside a
poll tick: the thunk either fulfills with the fetched query or rejects with a
message. -/
inductive FetchResult where
  | fulfilled (q : Query)
  | rejected (msg : String)
deriving DecidableEq, Repr

/-- The combined system state the poll tick touches: the Redux store, the
component's `pollingQueryId`, and the timer environment. -/
structure SysState where
  store : QueryState
  pollingQueryId : Option Int
  env : PollEnv
deriving DecidableEq, Repr

/-- One poll tick, from the `setInterval` callback in `QueryInput.tsx`:
the fetch result is dispatched to the store; only when the thunk fulfilled and
`query.status === 'completed' || query.status === 'failed'` does the tick set
`pollingQueryId` to `null` (whose effect re-run cancels the interval) and
dispatch `fetchQueries` (the returned `Bool` records that history refresh).
A rejected result matches neither branch: nothing further happens. -/
def tick (s : SysState) (r : FetchResult) : SysState × Bool :=
  match r with
  | .rejected msg =>
      ({ s with store := queryReducer s.store (.fetchQueryRejected msg) }, false)
  | .fulfilled q =>
      let store1 := queryReducer s.store (.fetchQueryFulfilled q)
      if q.status = .completed ∨ q.status = .failed then
        ({ store := store1, pollingQueryId := none, env := arm none s.env }, true)
      else
        ({ s with store := store1 }, false)

/-- The environment is watching: exactly one timer, its cleanup registered, at
the fixed 2000 ms interval. -/
def envWatching (e : PollEnv) : Prop :=
  ∃ t, e.timers = [t] ∧ e.cleanup = some t.handle ∧ t.intervalMs = 2000

/-- C6 (confirmed): on a poll tick whose fetch succeeds with a terminal job,
the timer is cancelled (no timer remains), the component transitions to idle
(`pollingQueryId = none`), and a full history refresh is dispatched; on a tick
returning a pending job, the environment is unchanged — the single timer stays
scheduled at the same fixed 2000 ms interval — and no refresh happens. -/
theorem C6_terminal_tick (s : SysState) (q : Query) (hw : envWatching s.env) :
    ((q.status = .completed ∨ q.status = .failed) →
       (tick s (.fulfilled q)).1.env.timers = [] ∧
       (tick s (.fulfilled q)).1.pollingQueryId = none ∧
       (tick s (.fulfilled q)).2 = true) ∧
    (q.status = .pending →
       (tick s (.fulfilled q)).1.env = s.env ∧
       (tick s (.fulfilled q)).1.pollingQueryId = s.pollingQueryId ∧
       (tick s (.fulfilled q)).2 = false ∧
       ∃ t, (tick s (.fulfilled q)).1.env.timers = [t] ∧ t.intervalMs = 2000) := by
  obtain ⟨t, ht, hc, hms⟩ := hw
  constructor
  · intro hterm
    have harm : (arm none s.env).timers = [] := by
      show (effectBody none (runCleanup s.env)).timers = []
      simp [effectBody, runCleanup, hc, clearIntervalEnv, ht]
    simp [tick, hterm, harm]
  · intro hpend
    have hterm : ¬ (q.status = .completed ∨ q.status = .failed) := by
      rw [hpend]; rintro (h | h) <;> exact QueryStatus.noConfusion h
    have hts : tick s (.fulfilled q) =
        ({ s with store := queryReducer s.store (.fetchQueryFulfilled q) }, false) := by
      simp [tick, hterm]
    rw [hts]
    exact ⟨rfl, rfl, rfl, t, ht, hms⟩

/-- A concrete watching environment for the tick witnesses. -/
def watchEnvSample : PollEnv :=
  { timers := [⟨0, 1, 2000⟩], nextHandle := 1, cleanup := some 0 }

/-- A concrete store state holding job 1 as a pending row and as the focused
job. -/
def storeSample : QueryState :=
  { initialState with queries := [sampleJob], currentQuery := some sampleJob }

/-- A concrete system state watching job 1. -/
def sysSample : SysState :=
  { store := storeSample
    pollingQueryId := some 1
    env := watchEnvSample }

/-- C6 witness: the terminal-tick theorem applied at the concrete watching
state. -/
theorem C6_terminal_tick_witness :
    (∃ t, sysSample.env.timers = [t] ∧ sysSample.env.cleanup = some t.handle ∧
        t.intervalMs = 2000) ∧
    (((sampleJobCompleted.status = .completed ∨ sampleJobCompleted.status = .failed) →
       (tick sysSample (.fulfilled sampleJobCompleted)).1.env.timers = [] ∧
       (tick sysSample (.fulfilled sampleJobCompleted)).1.pollingQueryId = none ∧
       (tick sysSample (.fulfilled sampleJobCompleted)).2 = true) ∧
     (sampleJobCompleted.status = .pending →
       (tick sysSample (.fulfilled sampleJobCompleted)).1.env = sysSample.env ∧
       (tick sysSample (.fulfilled sampleJobCompleted)).1.pollingQueryId =
          sysSample.pollingQueryId ∧
       (tick sysSample (.fulfilled sampleJobCompleted)).2 = false ∧
       ∃ t, (tick sysSample (.fulfilled sampleJobCompleted)).1.env.timers = [t] ∧
          t.intervalMs = 2000)) :=
  ⟨⟨⟨0, 1, 2000⟩, rfl, rfl, rfl⟩,
   C6_terminal_tick sysSample sampleJobCompleted ⟨⟨0, 1, 2000⟩, rfl, rfl, rfl⟩⟩

/-- C7 (confirmed): a rejected poll-tick fetch is a complete no-op: the timer
environment is untouched (the interval stays armed, so the next tick remains
scheduled), `pollingQueryId` is unchanged, the store — in particular its
user-visible `error` slot — is unchanged (the slice registers no case for
`fetchQuery.rejected`), and no history refresh is triggered. -/
theorem C7_rejected_tick_noop (s : SysState) (msg : String) :
    (tick s (.rejected msg)).1.env = s.env ∧
    (tick s (.rejected msg)).1.pollingQueryId = s.pollingQueryId ∧
    (tick s (.rejected msg)).1.store.error = s.store.error ∧
    (tick s (.rejected msg)).1 = s ∧
    (tick s (.rejected msg)).2 = false :=
  ⟨rfl, rfl, rfl, rfl, rfl⟩

/-!
Submission validation, from `handleSubmit` in `QueryInput.tsx`:

```
if (!queryText.trim()) return;
if (queryType === 'analyze' && !ticker.trim()) {
  alert('Please enter a ticker symbol for stock analysis');
  return;
}
const result = await dispatch(createQuery({ ... }));
```

`!s.trim()` is true exactly when every character of `s` is whitespace; we
model that test directly as `isBlank`. The model covers the synchronous
validation prefix of the handler: up to and including the decision whether
`createQuery` (the network call) is dispatched. -/

/-- The JS test `!s.trim()`: the string trims to empty. -/
def isBlank (s : String) : Bool := s.data.all Char.isWhitespace

/-- What the validation prefix of `handleSubmit` produced: whether the
`createQuery` network thunk was dispatched, the `alert` message shown (if
any), and the store as the handler left it. -/
structure SubmitOutcome where
  networkCalled : Bool
  alerted : Option String
  store : QueryState
deriving DecidableEq, Repr

/-- The validation prefix of `handleSubmit`: the two early-return guards,
then the dispatch of `createQuery`. -/
def handleSubmitLocal (queryText queryType ticker : String) (s : QueryState) :
    SubmitOutcome :=
  if isBlank queryText then
    { networkCalled := false, alerted := none, store := s }
  else if queryType == "analyze" && isBlank ticker then
    { networkCalled := false
      alerted := some "Please enter a ticker symbol for stock analysis"
      store := s }
  else
    { networkCalled := true, alerted := none, store := s }

/-- C8 (counterexample): local validation never sets the store's `error` slot.
On a blank request text the handler returns silently, and on an `analyze`
submission with a blank ticker it shows a browser `alert`; in both cases no
network call happens but `error` stays `none`, contradicting the claim that
`lastError` is set. -/
theorem C8_counterexample :
    ((handleSubmitLocal "" "general" "" initialState).networkCalled = false ∧
     (handleSubmitLocal "" "general" "" initialState).store.error = none ∧
     (handleSubmitLocal "" "general" "" initialState).alerted = none) ∧
    ((handleSubmitLocal "How is AAPL?" "analyze" "" initialState).networkCalled
        = false ∧
     (handleSubmitLocal "How is AAPL?" "analyze" "" initialState).store.error
        = none) := by decide

/-- C8 (amended): for every submission input with blank (after trimming)
request text, or with kind `analyze` and a blank ticker, `handleSubmit`
returns early without ever dispatching `createQuery` (no network call) and
leaves the store untouched — `loading` stays as it was and `error` is *not*
set; the blank-ticker case signals the problem with a browser `alert` rather
than through the store's error slot, and the blank-text case is silent. -/
theorem C8_local_validation (queryText queryType ticker : String) (s : QueryState)
    (h : isBlank queryText = true ∨
         (queryType = "analyze" ∧ isBlank ticker = true)) :
    (handleSubmitLocal queryText queryType ticker s).networkCalled = false ∧
    (handleSubmitLocal queryText queryType ticker s).store = s ∧
    ((handleSubmitLocal queryText queryType ticker s).alerted.isSome ↔
       (isBlank queryText = false ∧ queryType = "analyze" ∧
        isBlank ticker = true)) := by
  unfold handleSubmitLocal
  rcases h with h | ⟨h1, h2⟩
  · simp [h]
  · subst h1
    by_cases hq : isBlank queryText
    · simp [hq]
    · simp [hq, h2]

/-- C8 witness: the amended validation theorem applied to a blank request
text. -/
theorem C8_local_validation_witness :
    (isBlank "" = true ∨ ("general" = "analyze" ∧ isBlank "" = true)) ∧
    ((handleSubmitLocal "" "general" "" initialState).networkCalled = false ∧
     (handleSubmitLocal "" "general" "" initialState).store = initialState ∧
     ((handleSubmitLocal "" "general" "" initialState).alerted.isSome ↔
        (isBlank "" = false ∧ "general" = "analyze" ∧ isBlank "" = true))) :=
  ⟨Or.inl (by decide),
   C8_local_validation "" "general" "" initialState (Or.inl (by decide))⟩

/-!
The history sort projection, from `sortedQueries` in `QueryHistory.tsx`:

```
const sortedQueries = [...filteredQueries].sort((a, b) => {
  if (sortBy === 'newest') return new Date(b.created_at).getTime() - new Date(a.created_at).getTime();
  else if (sortBy === 'oldest') return new Date(a.created_at).getTime() - new Date(b.created_at).getTime();
  else if (sortBy === 'ticker') return (a.ticker || '').localeCompare(b.ticker || '');
  return 0;
});
```

`created_at` is already modelled by its `getTime()` value. `localeCompare` on
the plain uppercase tickers this app produces is modelled by character-wise
lexicographic comparison on the strings' character lists. JS `Array.sort` with
a consistent comparator is modelled by a stable sort (insertion sort) on a
copy of the list; the relation ordering `a` before `b` is `comparator a b ≤ 0`.
-/

/-- How the comparator reads a ticker: `a.ticker || ''` — an absent or empty
ticker becomes the empty string. -/
def tickerKey (q : Query) : String := q.ticker.getD ""

/-- The sign of `a.localeCompare(b)`, modelled by lexicographic comparison of
the character lists. -/
def localeCmp (s t : String) : Int :=
  if s.data < t.data then -1 else if t.data < s.data then 1 else 0

/-- The three values of the `sortBy` selector. -/
inductive SortBy where
  | newest
  | oldest
  | ticker
deriving DecidableEq, Repr

/-- The JS comparator passed to `.sort`. -/
def jsCompare : SortBy → Query → Query → Int
  | .newest, a, b => b.created_at - a.created_at
  | .oldest, a, b => a.created_at - b.created_at
  | .ticker, a, b => localeCmp (tickerKey a) (tickerKey b)

/-- `a` may come before `b` in the sorted output: the comparator is ≤ 0. -/
def sortLe (sb : SortBy) (a b : Query) : Prop := jsCompare sb a b ≤ 0

instance (sb : SortBy) : DecidableRel (sortLe sb) := fun a b => by
  unfold sortLe
  infer_instance

/-- The sorted projection: a stable sort of a copy of the (filtered) list. -/
def sortedQueries (sb : SortBy) (l : List Query) : List Query :=
  List.insertionSort (sortLe sb) l

/-- The comparator sign agrees with the lexicographic order on the character
lists. -/
theorem localeCmp_nonpos (s t : String) : localeCmp s t ≤ 0 ↔ s.data ≤ t.data := by
  unfold localeCmp
  split_ifs with h1 h2
  · simp [le_of_lt h1]
  · constructor
    · intro h; norm_num at h
    · intro h; exact absurd (lt_of_lt_of_le h2 h) (lt_irrefl _)
  · simp [le_of_not_lt h2]

instance (sb : SortBy) : IsTotal Query (sortLe sb) where
  total a b := by
    cases sb
    · show b.created_at - a.created_at ≤ 0 ∨ a.created_at - b.created_at ≤ 0
      omega
    · show a.created_at - b.created_at ≤ 0 ∨ b.created_at - a.created_at ≤ 0
      omega
    · show localeCmp (tickerKey a) (tickerKey b) ≤ 0 ∨
          localeCmp (tickerKey b) (tickerKey a) ≤ 0
      rw [localeCmp_nonpos, localeCmp_nonpos]
      exact le_total _ _

instance (sb : SortBy) : IsTrans Query (sortLe sb) where
  trans a b c hab hbc := by
    cases sb
    · have hab' : b.created_at - a.created_at ≤ 0 := hab
      have hbc' : c.created_at - b.created_at ≤ 0 := hbc
      show c.created_at - a.created_at ≤ 0
      omega
    · have hab' : a.created_at - b.created_at ≤ 0 := hab
      have hbc' : b.created_at - c.created_at ≤ 0 := hbc
      show a.created_at - c.created_at ≤ 0
      omega
    · have hab' : localeCmp (tickerKey a) (tickerKey b) ≤ 0 := hab
      have hbc' : localeCmp (tickerKey b) (tickerKey c) ≤ 0 := hbc
      rw [localeCmp_nonpos] at hab' hbc'
      show localeCmp (tickerKey a) (tickerKey c) ≤ 0
      rw [localeCmp_nonpos]
      exact le_trans hab' hbc'

/-- C9 (counterexample): the by-ticker sort places empty-ticker rows first,
not last. On the two-row input `[job with ticker "AAPL", job without ticker]`
the code returns the ticker-less job first; the claim requires it last. -/
theorem C9_counterexample :
    sortedQueries SortBy.ticker [sampleJob, sampleJobOther] =
        [sampleJobOther, sampleJob] ∧
    tickerKey sampleJobOther = "" ∧
    tickerKey sampleJob = "AAPL" ∧
    sortedQueries SortBy.ticker [sampleJob, sampleJobOther] ≠
        [sampleJob, sampleJobOther] := by decide

/-- C9 (amended): the sort is a pure projection — it returns a reordering (a
permutation) of its input, computed on a copy, leaving the store's list
untouched. The newest/oldest sorts order by `created_at` descending and
ascending respectively, and the by-ticker sort orders by lexicographic ticker
comparison under which the empty (or absent) ticker compares *before* every
non-empty ticker, so empty-ticker rows sort first, not last. -/
theorem C9_sort_projection (l : List Query) :
    ((sortedQueries .newest l).Perm l ∧ (sortedQueries .oldest l).Perm l ∧
     (sortedQueries .ticker l).Perm l) ∧
    (sortedQueries .newest l).Pairwise (fun a b => b.created_at ≤ a.created_at) ∧
    (sortedQueries .oldest l).Pairwise (fun a b => a.created_at ≤ b.created_at) ∧
    (sortedQueries .ticker l).Pairwise
      (fun a b => (tickerKey a).data ≤ (tickerKey b).data) ∧
    (sortedQueries .ticker l).Pairwise
      (fun a b => tickerKey b = "" → tickerKey a = "") := by
  have hticker := List.sorted_insertionSort (sortLe .ticker) l
  refine ⟨⟨List.perm_insertionSort _ l, List.perm_insertionSort _ l,
      List.perm_insertionSort _ l⟩, ?_, ?_, ?_, ?_⟩
  · exact (List.sorted_insertionSort (sortLe .newest) l).imp (fun h => by
      have h' : jsCompare .newest _ _ ≤ 0 := h
      simp only [jsCompare] at h'
      omega)
  · exact (List.sorted_insertionSort (sortLe .oldest) l).imp (fun h => by
      have h' : jsCompare .oldest _ _ ≤ 0 := h
      simp only [jsCompare] at h'
      omega)
  · exact hticker.imp (fun h => by
      have h' : localeCmp (tickerKey _) (tickerKey _) ≤ 0 := h
      exact (localeCmp_nonpos _ _).mp h')
  · refine hticker.imp (fun h hb => ?_)
    have h' : (tickerKey _).data ≤ (tickerKey _).data :=
      (localeCmp_nonpos _ _).mp h
    rw [hb] at h'
    have hnil : (tickerKey _).data = [] :=
      le_antisymm h' List.nil_le
    rcases hk : tickerKey _ with ⟨d⟩
    rw [hk] at hnil
    simp at hnil
    simp [hnil]

end TAAgent
